import Mathlib

/-!
Verification of the transcript-acquisition pipeline of the SuperPlayYouTube
browser extension (src/src/services/ui-manager.js, class YouTubeService, and
the shared constants/utilities files).

The JavaScript string-processing code is shallowly embedded over `List Char`.
Every global-regex `.replace` is modelled by a scanner that, at each position,
either fires the (deterministic, leftmost) match of the pattern anchored at
that position and continues after the match, or keeps one character and moves
on -- exactly the semantics of JavaScript `String.prototype.replace` with the
`g` flag.  The scanners carry an explicit fuel argument (always instantiated
with the length of the scanned list, which suffices because every match of
every pattern used here consumes at least one character).
-/

set_option maxRecDepth 20000

namespace SuperPlay

/-! ## Character classes used by the regexes in ui-manager.js -/

/-- JavaScript regex whitespace class `\s` (restricted to the ASCII part that
is relevant to the embedded code paths: space, tab, line feed, carriage
return, vertical tab, form feed). -/
def isWS (c : Char) : Bool :=
  c = ' ' || c = '\t' || c = '\n' || c = '\r' || c = '\x0b' || c = '\x0c'

/-- JavaScript regex word class `\w` = `[A-Za-z0-9_]`. -/
def wordChar (c : Char) : Bool :=
  c.isAlphanum || c = '_'

/-- The punctuation class `[,.!?]` used by cleanTranscript. -/
def isPunct (c : Char) : Bool :=
  c = ',' || c = '.' || c = '!' || c = '?'

/-! ## Generic global-replace driver -/

/-- One step of JavaScript global regex replace: `f` tries the pattern
anchored at the current position and, on success, returns the replacement
text together with the rest of the input after the matched span.  Mirrors
`String.prototype.replace(/pat/g, rep)`: scanning resumes after each match
and advances one character when no match starts at the current position. -/
def gReplace (f : List Char → Option (List Char × List Char)) :
    Nat → List Char → List Char
  | 0, s => s
  | _ + 1, [] => []
  | fuel + 1, c :: rest =>
    match f (c :: rest) with
    | some (rep, rem) => rep ++ gReplace f fuel rem
    | none => c :: gReplace f fuel rest

/-! ## Whitespace collapsing and trimming -/

/-- `replace(/\s+/g, ' ')`: every maximal whitespace run becomes one space.
The boolean argument records whether the previous character belonged to a
whitespace run that has already emitted its single space. -/
def collapseWSAux : Bool → List Char → List Char
  | _, [] => []
  | prevWS, c :: rest =>
    if isWS c then
      if prevWS then collapseWSAux true rest
      else ' ' :: collapseWSAux true rest
    else c :: collapseWSAux false rest

def collapseWS (s : List Char) : List Char :=
  collapseWSAux false s

/-- JavaScript `String.prototype.trim` on the character list. -/
def trimL (s : List Char) : List Char :=
  ((s.dropWhile isWS).reverse.dropWhile isWS).reverse

/-- `text.trim()` as used on the element texts of the visible-caption and
description strategies. -/
def jsTrim (s : String) : String :=
  String.mk (trimL s.data)

/-! ## cleanTranscript (ui-manager.js lines 1457-1476) -/

/-- Case-insensitive character comparison (the `i` regex flag; ASCII). -/
def lowerEq (a b : Char) : Bool :=
  a.toLower = b.toLower

/-- Does `s` start with `tag`, comparing case-insensitively? -/
def startsWithCI : List Char → List Char → Bool
  | [], _ => true
  | _ :: _, [] => false
  | t :: ts, c :: cs => lowerEq t c && startsWithCI ts cs

/-- Anchored match of a case-insensitive literal tag such as `[Music]`
(the patterns `/\[Music\]/gi` etc.), replaced by the empty string. -/
def tagMatchAt (tag : List Char) (s : List Char) : Option (List Char × List Char) :=
  if startsWithCI tag s then some ([], s.drop tag.length) else none

/-- Case-insensitive list equality (used for the backreference `\1` under
the `i` flag). -/
def ciEq : List Char → List Char → Bool
  | [], [] => true
  | a :: as, b :: bs => lowerEq a b && ciEq as bs
  | _, _ => false

/-- Is the position at the head of `s` a word boundary when the previous
character is a word character? -/
def boundaryAfter : List Char → Bool
  | [] => true
  | d :: _ => !wordChar d

/-- `replace(/\b(\w+)\s+\1\b/gi, '$1')`: collapse an immediately repeated
word (case-insensitively) to its first occurrence.  A match can only start
at a word boundary followed by a word character, i.e. at the start of a
word; the boolean argument tracks whether the previous character was a word
character.  Greediness of `\w+` and `\s+` is forced (shorter splits make the
next pattern atom fail on a character of the wrong class), so the anchored
match is deterministic. -/
def dedupWordsAux : Nat → Bool → List Char → List Char
  | 0, _, s => s
  | _ + 1, _, [] => []
  | fuel + 1, prevW, c :: rest =>
    if !prevW && wordChar c then
      let w := (c :: rest).takeWhile wordChar
      let afterW := (c :: rest).dropWhile wordChar
      let sp := afterW.takeWhile isWS
      let afterSp := afterW.dropWhile isWS
      if sp ≠ [] && ciEq (afterSp.take w.length) w &&
          boundaryAfter (afterSp.drop w.length) then
        w ++ dedupWordsAux fuel true (afterSp.drop w.length)
      else
        c :: dedupWordsAux fuel (wordChar c) rest
    else
      c :: dedupWordsAux fuel (wordChar c) rest

def dedupWords (s : List Char) : List Char :=
  dedupWordsAux s.length false s

/-- Anchored match of `/\s+([,.!?])/g` replaced by `'$1'`: a whitespace run
immediately followed by a punctuation character collapses to just the
punctuation character. -/
def dMatchAt (s : List Char) : Option (List Char × List Char) :=
  match s with
  | c :: _ =>
    if isWS c then
      match s.dropWhile isWS with
      | p :: rest => if isPunct p then some ([p], rest) else none
      | [] => none
    else none
  | [] => none

/-- Anchored match of `/([,.!?])\s*([,.!?])/g` replaced by `'$1'`: two
punctuation characters separated by optional whitespace collapse to the
first one. -/
def eMatchAt (s : List Char) : Option (List Char × List Char) :=
  match s with
  | c :: rest =>
    if isPunct c then
      match rest.dropWhile isWS with
      | d :: rest2 => if isPunct d then some ([c], rest2) else none
      | [] => none
    else none
  | [] => none

/-- YouTubeService.cleanTranscript (ui-manager.js lines 1457-1476):
`if (!rawTranscript) return ''`, then the chain of global replaces
`\s+ -> ' '`, strip `[Music] [Applause] [Laughter] [Inaudible]`
case-insensitively, collapse repeated words, tighten punctuation spacing,
drop a punctuation character directly following another, then
`.trim().replace(/\s+/g, ' ')`. -/
def cleanTranscript (raw : String) : String :=
  if raw = "" then ""
  else
    let s1 := collapseWS raw.data
    let s2 := gReplace (tagMatchAt "[music]".data) s1.length s1
    let s3 := gReplace (tagMatchAt "[applause]".data) s2.length s2
    let s4 := gReplace (tagMatchAt "[laughter]".data) s3.length s3
    let s5 := gReplace (tagMatchAt "[inaudible]".data) s4.length s4
    let s6 := dedupWords s5
    let s7 := gReplace dMatchAt s6.length s6
    let s8 := gReplace eMatchAt s7.length s7
    String.mk (collapseWS (trimL s8))

/-! ## decodeHTMLEntities (ui-manager.js lines 1439-1452) -/

/-- The character class `[a-zA-Z0-9#]` of the entity-matching regex. -/
def entChar (c : Char) : Bool :=
  c.isAlphanum || c = '#'

/-- The fixed entity table of decodeHTMLEntities; unknown entities are left
unchanged (`entities[entity] || entity`). -/
def entityTable : List (List Char × List Char) :=
  [ ("&amp;".data, "&".data),
    ("&lt;".data, "<".data),
    ("&gt;".data, ">".data),
    ("&quot;".data, "\"".data),
    ("&#39;".data, "'".data),
    ("&nbsp;".data, " ".data) ]

/-- Anchored match of `/&[a-zA-Z0-9#]+;/g`: an ampersand, a nonempty run of
`[a-zA-Z0-9#]`, a semicolon.  The replacement is the table entry when the
entity is known and the matched entity itself otherwise. -/
def entityMatchAt (s : List Char) : Option (List Char × List Char) :=
  match s with
  | '&' :: rest =>
    let run := rest.takeWhile entChar
    if run ≠ [] then
      match rest.drop run.length with
      | ';' :: rest2 =>
        let ent := '&' :: (run ++ [';'])
        let rep := ((entityTable.find? (fun p => p.1 = ent)).map Prod.snd).getD ent
        some (rep, rest2)
      | _ => none
    else none
  | _ => none

/-- YouTubeService.decodeHTMLEntities (ui-manager.js lines 1439-1452). -/
def decodeHTMLEntities (text : String) : String :=
  String.mk (gReplace entityMatchAt text.data.length text.data)

/-! ## Timed-text XML parsing (ui-manager.js lines 1392-1434) -/

/-- Anchored match of one `<text[^>]*>([^<]*)<\/text>` element: returns the
captured group (the raw inner text) and the rest of the input after the
closing tag.  `[^>]*` and `[^<]*` are forced maximal (shorter splits put a
character of the excluded class where the following literal must match). -/
def xmlTextMatchAt (s : List Char) : Option (List Char × List Char) :=
  match s with
  | '<' :: 't' :: 'e' :: 'x' :: 't' :: rest =>
    match rest.dropWhile (fun c => c ≠ '>') with
    | '>' :: rest2 =>
      let content := rest2.takeWhile (fun c => c ≠ '<')
      let after := rest2.dropWhile (fun c => c ≠ '<')
      if "</text>".data.isPrefixOf after then some (content, after.drop 7)
      else none
    | _ => none
  | _ => none

/-- All matches of `/<text[^>]*>([^<]*)<\/text>/g` in document order
(`xmlText.match(...)` followed by the per-match group extraction). -/
def xmlTextMatches : Nat → List Char → List (List Char)
  | 0, _ => []
  | _ + 1, [] => []
  | fuel + 1, c :: rest =>
    match xmlTextMatchAt (c :: rest) with
    | some (content, rem) => content :: xmlTextMatches fuel rem
    | none => xmlTextMatches fuel rest

/-- YouTubeService.parseTranscriptXMLWithRegex (ui-manager.js lines
1420-1434): throw when no element matches, otherwise decode each captured
text, keep those that are nonempty after trimming, and join with single
spaces. -/
def parseTranscriptXMLWithRegex (xmlText : String) : Except String String :=
  let ms := xmlTextMatches xmlText.data.length xmlText.data
  if ms = [] then Except.error "No text elements found in XML"
  else
    Except.ok (String.intercalate " "
      ((ms.map (fun m => decodeHTMLEntities (String.mk m))).filter
        (fun t => jsTrim t ≠ "")))

/-- Model of the browser XML text-content decoding used by the DOMParser
path of parseTranscriptXML: `el.textContent` yields the element text with
the predefined XML entities and decimal character references resolved.
This is a platform capability (DOMParser), not repository code; it is
modelled here so that the structured-parser path of parseTranscriptXML can
be compared with the repository's pure-regex fallback. -/
def xmlEntMatchAt (s : List Char) : Option (List Char × List Char) :=
  match s with
  | '&' :: rest =>
    if "amp;".data.isPrefixOf rest then some ("&".data, rest.drop 4)
    else if "lt;".data.isPrefixOf rest then some ("<".data, rest.drop 3)
    else if "gt;".data.isPrefixOf rest then some (">".data, rest.drop 3)
    else if "quot;".data.isPrefixOf rest then some ("\"".data, rest.drop 5)
    else if "apos;".data.isPrefixOf rest then some ("'".data, rest.drop 5)
    else
      match rest with
      | '#' :: rest2 =>
        let ds := rest2.takeWhile Char.isDigit
        if ds ≠ [] then
          match rest2.drop ds.length with
          | ';' :: rest3 =>
            some ([Char.ofNat (ds.foldl (fun n c => n * 10 + (c.toNat - 48)) 0)],
              rest3)
          | _ => none
        else none
      | _ => none
  | _ => none

/-- Model of `el.textContent` for a `<text>` element whose raw inner text is
`raw` (see xmlEntMatchAt). -/
def domTextContent (raw : List Char) : String :=
  String.mk (gReplace xmlEntMatchAt raw.length raw)

/-- YouTubeService.parseTranscriptXML (ui-manager.js lines 1392-1415): the
DOMParser path maps decodeHTMLEntities over the text contents of the `text`
elements, keeps the ones that are nonempty after trimming and joins with
single spaces; when the structured parse finds no `text` element the
pure-regex fallback is used.  The DOMParser element scan is modelled by the
same element recogniser as the fallback (on well-formed timed-text
documents the two agree on the element list), with textContent modelled by
domTextContent. -/
def parseTranscriptXML (xmlText : String) : Except String String :=
  let ms := xmlTextMatches xmlText.data.length xmlText.data
  if ms ≠ [] then
    Except.ok (String.intercalate " "
      ((ms.map (fun m => decodeHTMLEntities (domTextContent m))).filter
        (fun t => jsTrim t ≠ "")))
  else parseTranscriptXMLWithRegex xmlText

/-! ## fetchFromDescription (ui-manager.js lines 1310-1341) -/

/-- The minimum-length constant UIConfig.MIN_TRANSCRIPT_LENGTH
(src/unnamed/part_005, the shared constants file). -/
def MIN_TRANSCRIPT_LENGTH : Nat := 50

/-- Anchored match of the timestamp-counting regex `/\d{1,2}:\d{2}/g`:
returns the rest of the input after the match.  `\d{1,2}` is greedy; when
two leading digits are available but no `:dd` follows, backtracking to one
digit cannot succeed either (the second character is a digit, not a colon),
so the anchored match is deterministic. -/
def tsMatchAt (s : List Char) : Option (List Char) :=
  match s with
  | a :: rest =>
    if a.isDigit then
      match rest with
      | b :: rest2 =>
        if b.isDigit then
          match rest2 with
          | ':' :: c :: d :: rest3 =>
            if c.isDigit && d.isDigit then some rest3 else none
          | _ => none
        else if b = ':' then
          match rest2 with
          | c :: d :: rest3 =>
            if c.isDigit && d.isDigit then some rest3 else none
          | _ => none
        else none
      | [] => none
    else none
  | [] => none

/-- Number of matches of `/\d{1,2}:\d{2}/g` (`description.match(...)` and
its length; a null match result corresponds to count 0). -/
def countTimestamps : Nat → List Char → Nat
  | 0, _ => 0
  | _ + 1, [] => 0
  | fuel + 1, c :: rest =>
    match tsMatchAt (c :: rest) with
    | some rem => countTimestamps fuel rem + 1
    | none => countTimestamps fuel rest

/-- Anchored match of the stripping regex `/\d{1,2}:\d{2}(?::\d{2})?\s*/g`
(replacement is the empty string): the `M:SS` core, an optional `:SS`
extension, then trailing whitespace. -/
def tsStripMatchAt (s : List Char) : Option (List Char × List Char) :=
  match tsMatchAt s with
  | none => none
  | some rem =>
    let rem2 :=
      match rem with
      | ':' :: c :: d :: rest => if c.isDigit && d.isDigit then rest else rem
      | _ => rem
    some ([], rem2.dropWhile isWS)

/-- Anchored match of `/\n+/g` replaced by a single space. -/
def nlMatchAt (s : List Char) : Option (List Char × List Char) :=
  match s with
  | '\n' :: _ => some ([' '], s.dropWhile (fun c => c = '\n'))
  | _ => none

/-- The post-acceptance transform of fetchFromDescription:
`description.replace(/\d{1,2}:\d{2}(?::\d{2})?\s*/g, '').replace(/\n+/g, ' ').trim()`. -/
def descStripped (description : String) : String :=
  let s1 := gReplace tsStripMatchAt description.data.length description.data
  let s2 := gReplace nlMatchAt s1.length s1
  String.mk (trimL s2)

/-- `description.match(/\d{1,2}:\d{2}/g)` and its length, packaged for the
acceptance test of fetchFromDescription. -/
def tsCount (d : String) : Nat :=
  countTimestamps d.data.length d.data

/-- YouTubeService.fetchFromDescription (ui-manager.js lines 1310-1341).
The input is the text content of the description element (`none` when the
element is absent).  The description is rejected when it contains fewer
than five timestamp-shaped substrings, or when it is shorter than
2 * MIN_TRANSCRIPT_LENGTH characters; otherwise the timestamp-stripped,
newline-collapsed, trimmed remainder is returned. -/
def fetchFromDescription (description : Option String) : Except String String :=
  match description with
  | none => Except.error "No description found"
  | some d =>
    if tsCount d < 5 then
      Except.error "Description does not appear to contain transcript"
    else if d.length < MIN_TRANSCRIPT_LENGTH * 2 then
      Except.error "Description too short to be a transcript"
    else
      Except.ok (descStripped d)

/-! ## Video id extraction -/

/-- The character class `[a-zA-Z0-9_-]` of the VideoIdPatterns. -/
def idChar (c : Char) : Bool :=
  c.isAlphanum || c = '-' || c = '_'

/-- The capture group `([a-zA-Z0-9_-]{11})`: exactly the next eleven
characters, all drawn from the id alphabet (an exact repetition count
admits no backtracking). -/
def take11Id (s : List Char) : Option (List Char) :=
  let t := s.take 11
  if t.length = 11 && t.all idChar then some t else none

/-- Anchored match of VideoIdPatterns.WATCH_URL
`/[?&]v=([a-zA-Z0-9_-]{11})/` returning the capture group. -/
def watchAt (s : List Char) : Option (List Char) :=
  match s with
  | d :: 'v' :: '=' :: rest =>
    if d = '?' || d = '&' then take11Id rest else none
  | _ => none

/-- Anchored match of VideoIdPatterns.EMBED_URL
`/\/embed\/([a-zA-Z0-9_-]{11})/`. -/
def embedAt (s : List Char) : Option (List Char) :=
  if "/embed/".data.isPrefixOf s then take11Id (s.drop 7) else none

/-- Anchored match of VideoIdPatterns.SHORT_URL
`/youtu\.be\/([a-zA-Z0-9_-]{11})/`. -/
def shortAt (s : List Char) : Option (List Char) :=
  if "youtu.be/".data.isPrefixOf s then take11Id (s.drop 9) else none

/-- Leftmost match: try the anchored pattern at every position from the
left (JavaScript `String.prototype.match` without `g`). -/
def scanFor (f : List Char → Option (List Char)) : List Char → Option (List Char)
  | [] => none
  | c :: rest => (f (c :: rest)).orElse (fun _ => scanFor f rest)

/-- YouTubeService.extractVideoId (ui-manager.js lines 933-939): try the
three VideoIdPatterns in object order (WATCH_URL, EMBED_URL, SHORT_URL) and
return the first capture group, or null. -/
def extractVideoId (url : String) : Option String :=
  match scanFor watchAt url.data with
  | some r => some (String.mk r)
  | none =>
    match scanFor embedAt url.data with
    | some r => some (String.mk r)
    | none => (scanFor shortAt url.data).map (fun r => String.mk r)

/-! ### The transcriptUtils variant (src/unnamed/part_005 lines 149-163) -/

/-- The group class `[^&\n?#]` of the transcriptUtils patterns. -/
def notDelim (c : Char) : Bool :=
  c ≠ '&' && c ≠ '\n' && c ≠ '?' && c ≠ '#'

/-- Anchored match of the first transcriptUtils pattern
`/(?:youtube\.com\/watch\?v=|youtu\.be\/|youtube\.com\/embed\/)([^&\n?#]+)/`:
the three literal alternatives are tried in order, each followed by a
nonempty maximal run of non-delimiter characters. -/
def p1At (s : List Char) : Option (List Char) :=
  let tryPre : List Char → Option (List Char) := fun pre =>
    if pre.isPrefixOf s then
      let run := (s.drop pre.length).takeWhile notDelim
      if run = [] then none else some run
    else none
  (tryPre "youtube.com/watch?v=".data).orElse (fun _ =>
    (tryPre "youtu.be/".data).orElse (fun _ =>
      tryPre "youtube.com/embed/".data))

/-- Candidate for the second transcriptUtils pattern: is `v=` present at
offset `k` of `rest`, followed by a nonempty run of non-delimiters? -/
def p2Try (rest : List Char) (k : Nat) : Option (List Char) :=
  if "v=".data.isPrefixOf (rest.drop k) then
    let run := (rest.drop (k + 2)).takeWhile notDelim
    if run = [] then none else some run
  else none

/-- Greedy `.*` backtracking for the second transcriptUtils pattern: try the
rightmost `v=` first and move left. -/
def p2Search (rest : List Char) : Nat → Option (List Char)
  | 0 => p2Try rest 0
  | k + 1 => (p2Try rest (k + 1)).orElse (fun _ => p2Search rest k)

/-- Anchored match of the second transcriptUtils pattern
`/youtube\.com\/watch\?.*v=([^&\n?#]+)/` (`.` does not cross a line
terminator, and `v=` plus the group also cannot contain one, so the whole
suffix of the match lies before the first line terminator). -/
def p2At (s : List Char) : Option (List Char) :=
  if "youtube.com/watch?".data.isPrefixOf s then
    let rest := s.drop 18
    let seg := rest.takeWhile (fun c => c ≠ '\n' && c ≠ '\r')
    p2Search rest seg.length
  else none

/-- transcriptUtils extractVideoId (src/unnamed/part_005 lines 149-163):
the two patterns are tried in order over the whole URL; the first capture
group found is returned, else null. -/
def utilsExtractVideoId (url : String) : Option String :=
  match scanFor p1At url.data with
  | some r => some (String.mk r)
  | none => (scanFor p2At url.data).map (fun r => String.mk r)

/-! ## fetchFromVisibleCaptions (ui-manager.js lines 1249-1305) -/

/-- The page state observed by fetchFromVisibleCaptions.  `selectorResults`
holds the element texts returned by `document.querySelectorAll` for the
four caption selectors, in selector order; `afterClickSegments` holds the
texts of `.ytp-caption-segment` elements found by the second query after
the captions toggle has been clicked. -/
structure CaptionPage where
  selectorResults : List (List String)
  buttonPresent : Bool
  buttonActive : Bool
  afterClickSegments : List String

/-- Result of one run of fetchFromVisibleCaptions: the outcome, the number
of caption-harvest read passes performed (1 or 2) and whether the captions
toggle was clicked. -/
structure VisibleResult where
  outcome : Except String String
  readPasses : Nat
  clicked : Bool

/-- The selector loop: `captionElements` after the loop is the result of
the first selector with a nonempty result, or empty. -/
def firstNonempty (l : List (List String)) : List String :=
  (l.find? (fun r => r ≠ [])).getD []

/-- The tail of fetchFromVisibleCaptions after the caption elements have
been collected: fail when none were found, otherwise join the trimmed
texts longer than one character with single spaces and require the minimum
transcript length (lines 1286-1300). -/
def visibleFinish (els : List String) (readPasses : Nat) (clicked : Bool) :
    VisibleResult :=
  if els = [] then
    ⟨Except.error "No visible captions found", readPasses, clicked⟩
  else
    let transcript :=
      String.intercalate " " ((els.map jsTrim).filter (fun t => 1 < t.length))
    if transcript.length < MIN_TRANSCRIPT_LENGTH then
      ⟨Except.error "Visible captions too short", readPasses, clicked⟩
    else
      ⟨Except.ok transcript, readPasses, clicked⟩

/-- YouTubeService.fetchFromVisibleCaptions (ui-manager.js lines
1249-1305): read the rendered caption lines; when none are visible and the
captions toggle exists and is inactive, click it and read once more; then
finish as in visibleFinish. -/
def fetchFromVisibleCaptions (p : CaptionPage) : VisibleResult :=
  let els := firstNonempty p.selectorResults
  if els = [] then
    if p.buttonPresent && !p.buttonActive then
      visibleFinish p.afterClickSegments 2 true
    else visibleFinish els 1 false
  else visibleFinish els 1 false

/-! ## The fetchTranscript driver (ui-manager.js lines 994-1036)

The five strategy methods (in source order: fetchFromPageData,
fetchFromCaptionTracks, fetchFromVisibleCaptions, fetchFromDescription,
fetchFromPlayerAPI, lines 1005-1011) are effectful: they read the page and
the network.  The driver loop treats each as a thunk that either throws or
returns a string, so a single acquisition is modelled by the list of the
five outcomes; the driver is a fold over that list. -/

/-- An attempted strategy either throws (error message) or returns its raw
transcript string. -/
abbrev MethodOutcome := Except String String

/-- The driver's acceptance test `transcript && transcript.length >=
UIConfig.MIN_TRANSCRIPT_LENGTH` (line 1016; for a string result, truthiness
is subsumed by the length test). -/
def passes (m : MethodOutcome) : Bool :=
  match m with
  | Except.ok t => MIN_TRANSCRIPT_LENGTH ≤ t.length
  | Except.error _ => false

/-- The `for (const method of methods)` loop (lines 1013-1028): each thrown
error is caught and swallowed, a sub-threshold result falls through, and
the first result meeting the minimum length is returned.  The second
component counts how many strategies were attempted. -/
def runMethods : List MethodOutcome → Option String × Nat
  | [] => (none, 0)
  | m :: rest =>
    match m with
    | Except.ok t =>
      if MIN_TRANSCRIPT_LENGTH ≤ t.length then (some t, 1)
      else ((runMethods rest).1, (runMethods rest).2 + 1)
    | Except.error _ => ((runMethods rest).1, (runMethods rest).2 + 1)

/-- Index of the first strategy whose outcome passes the acceptance test. -/
def firstPassIdx : List MethodOutcome → Option Nat
  | [] => none
  | m :: rest =>
    if passes m then some 0 else (firstPassIdx rest).map (fun i => i + 1)

/-- The in-memory transcript cache `this.transcriptCache` (a Map from video
id to cleaned transcript), modelled as an association list with
first-match lookup. -/
abbrev Cache := List (String × String)

/-- `transcriptCache.get` / `transcriptCache.has`. -/
def cacheGet : Cache → String → Option String
  | [], _ => none
  | (k, v) :: rest, key => if k = key then some v else cacheGet rest key

/-- `transcriptCache.set` (Map.set; with first-match lookup, prepending the
new binding has the same observable behaviour as overwriting). -/
def cacheSet (c : Cache) (key value : String) : Cache :=
  (key, value) :: c

/-- The terminal error of fetchTranscript (line 1034). -/
def noTranscriptMsg : String :=
  "Could not fetch video transcript. This video may not have captions available."

/-- YouTubeService.fetchTranscript (ui-manager.js lines 994-1036): return
the cached transcript when present; otherwise run the strategy chain, and
on the first raw result meeting the minimum length clean it, cache it and
return it; when every strategy is exhausted, fail with the terminal error
(the internal `All transcript fetch methods failed` throw is caught by the
outer handler and rethrown as the terminal message).  The third component
is the number of strategies attempted (0 on a cache hit). -/
def fetchTranscript (cache : Cache) (videoId : String)
    (methods : List MethodOutcome) : Except String String × Cache × Nat :=
  match cacheGet cache videoId with
  | some t => (Except.ok t, cache, 0)
  | none =>
    match runMethods methods with
    | (some raw, n) =>
      (Except.ok (cleanTranscript raw),
        cacheSet cache videoId (cleanTranscript raw), n)
    | (none, n) => (Except.error noTranscriptMsg, cache, n)

/-! ## Helper lemmas about the driver -/

theorem runMethods_error_cons (e : String) (r : List MethodOutcome) :
    runMethods (Except.error e :: r) = ((runMethods r).1, (runMethods r).2 + 1) :=
  rfl

theorem runMethods_count_le (ms : List MethodOutcome) :
    (runMethods ms).2 ≤ ms.length := by
  induction ms with
  | nil => simp [runMethods]
  | cons a rest ih =>
    cases a with
    | ok t =>
      by_cases hp : MIN_TRANSCRIPT_LENGTH ≤ t.length
      · simp [runMethods, hp]
      · simp only [runMethods, if_neg hp, List.length_cons]
        omega
    | error e =>
      simp only [runMethods, List.length_cons]
      omega

theorem runMethods_allFail (ms : List MethodOutcome)
    (h : ∀ m ∈ ms, passes m = false) :
    runMethods ms = (none, ms.length) := by
  induction ms with
  | nil => rfl
  | cons a rest ih =>
    have hrest : ∀ m ∈ rest, passes m = false :=
      fun m hm => h m (List.mem_cons_of_mem a hm)
    have ha := h a (List.mem_cons_self a rest)
    cases a with
    | ok t =>
      have hp : ¬ MIN_TRANSCRIPT_LENGTH ≤ t.length := by
        simpa [passes] using ha
      simp [runMethods, hp, ih hrest]
    | error e => simp [runMethods, ih hrest]

theorem runMethods_existsPass (ms : List MethodOutcome) :
    (∃ m ∈ ms, passes m = true) →
    ∃ raw, (runMethods ms).1 = some raw ∧ MIN_TRANSCRIPT_LENGTH ≤ raw.length := by
  induction ms with
  | nil =>
    intro h
    obtain ⟨m, hm, _⟩ := h
    simp at hm
  | cons a rest ih =>
    intro h
    cases a with
    | ok t =>
      by_cases hp : MIN_TRANSCRIPT_LENGTH ≤ t.length
      · exact ⟨t, by simp [runMethods, hp], hp⟩
      · have hrest : ∃ m ∈ rest, passes m = true := by
          obtain ⟨m, hm, hpm⟩ := h
          rcases List.mem_cons.mp hm with heq | hmem
          · subst heq
            have : MIN_TRANSCRIPT_LENGTH ≤ t.length := by
              simpa [passes] using hpm
            exact absurd this hp
          · exact ⟨m, hmem, hpm⟩
        obtain ⟨raw, h1, h2⟩ := ih hrest
        exact ⟨raw, by simp [runMethods, hp, h1], h2⟩
    | error e =>
      have hrest : ∃ m ∈ rest, passes m = true := by
        obtain ⟨m, hm, hpm⟩ := h
        rcases List.mem_cons.mp hm with heq | hmem
        · subst heq; simp [passes] at hpm
        · exact ⟨m, hmem, hpm⟩
      obtain ⟨raw, h1, h2⟩ := ih hrest
      exact ⟨raw, by simp [runMethods, h1], h2⟩

theorem runMethods_some_length (ms : List MethodOutcome) :
    ∀ raw, (runMethods ms).1 = some raw → MIN_TRANSCRIPT_LENGTH ≤ raw.length := by
  induction ms with
  | nil => intro raw h; simp [runMethods] at h
  | cons a rest ih =>
    intro raw h
    cases a with
    | ok t =>
      by_cases hp : MIN_TRANSCRIPT_LENGTH ≤ t.length
      · simp [runMethods, hp] at h
        exact h ▸ hp
      · simp only [runMethods, if_neg hp] at h
        exact ih raw h
    | error e =>
      simp only [runMethods] at h
      exact ih raw h

theorem runMethods_count_of_firstPass (ms : List MethodOutcome) :
    ∀ i, firstPassIdx ms = some i → (runMethods ms).2 = i + 1 := by
  induction ms with
  | nil => intro i h; simp [firstPassIdx] at h
  | cons a rest ih =>
    intro i h
    cases a with
    | ok t =>
      by_cases hp : MIN_TRANSCRIPT_LENGTH ≤ t.length
      · have h0 : i = 0 := by
          simp [firstPassIdx, passes, hp] at h
          omega
        subst h0
        simp [runMethods, hp]
      · have hfi : (firstPassIdx rest).map (fun j => j + 1) = some i := by
          simpa [firstPassIdx, passes, hp] using h
        cases hrest : firstPassIdx rest with
        | none => rw [hrest] at hfi; simp at hfi
        | some j =>
          rw [hrest] at hfi
          simp at hfi
          simp only [runMethods, if_neg hp]
          rw [ih j hrest]
          omega
    | error e =>
      have hfi : (firstPassIdx rest).map (fun j => j + 1) = some i := by
        simpa [firstPassIdx, passes] using h
      cases hrest : firstPassIdx rest with
      | none => rw [hrest] at hfi; simp at hfi
      | some j =>
        rw [hrest] at hfi
        simp at hfi
        simp only [runMethods]
        rw [ih j hrest]
        omega

theorem runMethods_count_of_noPass (ms : List MethodOutcome)
    (h : firstPassIdx ms = none) :
    (runMethods ms).2 = ms.length := by
  induction ms with
  | nil => rfl
  | cons a rest ih =>
    cases a with
    | ok t =>
      by_cases hp : MIN_TRANSCRIPT_LENGTH ≤ t.length
      · simp [firstPassIdx, passes, hp] at h
      · have hrest : firstPassIdx rest = none := by
          have := h
          simp [firstPassIdx, passes, hp] at this
          simpa using this
        simp only [runMethods, if_neg hp, List.length_cons]
        rw [ih hrest]
    | error e =>
      have hrest : firstPassIdx rest = none := by
        have := h
        simp [firstPassIdx, passes] at this
        simpa using this
      simp only [runMethods, List.length_cons]
      rw [ih hrest]

theorem cacheGet_cacheSet (c : Cache) (k v : String) :
    cacheGet (cacheSet c k v) k = some v := by
  simp [cacheGet, cacheSet]

theorem fetchTranscript_count (c : Cache) (v : String) (ms : List MethodOutcome)
    (h : cacheGet c v = none) :
    (fetchTranscript c v ms).2.2 = (runMethods ms).2 := by
  cases hr : runMethods ms with
  | mk o k =>
    cases o with
    | some raw => simp [fetchTranscript, h, hr]
    | none => simp [fetchTranscript, h, hr]

theorem visibleFinish_readPasses (els : List String) (n : Nat) (b : Bool) :
    (visibleFinish els n b).readPasses = n := by
  unfold visibleFinish
  split
  · rfl
  · dsimp only
    split <;> rfl

theorem visibleFinish_clicked (els : List String) (n : Nat) (b : Bool) :
    (visibleFinish els n b).clicked = b := by
  unfold visibleFinish
  split
  · rfl
  · dsimp only
    split <;> rfl

/-! ## Helper lemmas about video id extraction -/

theorem take11Id_spec (s t : List Char) (h : take11Id s = some t) :
    t.length = 11 ∧ t.all idChar = true := by
  unfold take11Id at h
  dsimp only at h
  split at h
  · next hcond =>
    obtain ⟨h1, h2⟩ := Bool.and_eq_true_iff.mp hcond
    cases h
    exact ⟨by simpa using h1, h2⟩
  · exact absurd h (by simp)

theorem watchAt_spec (s t : List Char) (h : watchAt s = some t) :
    t.length = 11 ∧ t.all idChar = true := by
  unfold watchAt at h
  split at h
  · split at h
    · exact take11Id_spec _ _ h
    · exact absurd h (by simp)
  · exact absurd h (by simp)

theorem embedAt_spec (s t : List Char) (h : embedAt s = some t) :
    t.length = 11 ∧ t.all idChar = true := by
  unfold embedAt at h
  split at h
  · exact take11Id_spec _ _ h
  · exact absurd h (by simp)

theorem shortAt_spec (s t : List Char) (h : shortAt s = some t) :
    t.length = 11 ∧ t.all idChar = true := by
  unfold shortAt at h
  split at h
  · exact take11Id_spec _ _ h
  · exact absurd h (by simp)

theorem scanFor_spec {f : List Char → Option (List Char)}
    {P : List Char → Prop} (hf : ∀ s t, f s = some t → P t) :
    ∀ s t, scanFor f s = some t → P t := by
  intro s
  induction s with
  | nil => intro t h; simp [scanFor] at h
  | cons c rest ih =>
    intro t h
    cases hfc : f (c :: rest) with
    | some u =>
      have : u = t := by
        simpa [scanFor, hfc, Option.orElse] using h
      exact this ▸ hf (c :: rest) u hfc
    | none =>
      have : scanFor f rest = some t := by
        simpa [scanFor, hfc, Option.orElse] using h
      exact ih t this

/-! ## Claims -/

/-- Claim C1, counterexample.  The claim states that whenever some strategy
produces a raw result of length at least 50, fetchTranscript returns a
result of length at least 50.  It is false: the driver checks the
50-character minimum on the raw strategy result before cleaning, and
cleaning can shrink the text below the minimum.  With a single strategy
returning eight copies of `[Music]` (56 characters), fetchTranscript
returns the cleaned transcript, which is the empty string. -/
theorem claim1_counterexample :
    MIN_TRANSCRIPT_LENGTH ≤
      ("[Music][Music][Music][Music][Music][Music][Music][Music]" : String).length ∧
    (fetchTranscript [] "vid"
      [Except.ok "[Music][Music][Music][Music][Music][Music][Music][Music]"]).1 =
      Except.ok "" ∧
    ¬ MIN_TRANSCRIPT_LENGTH ≤ ("" : String).length := by
  refine ⟨by decide, by rfl, by decide⟩

/-- Claim C1, amended: when the cache has no entry for the video id and at
least one strategy outcome passes the driver's acceptance test (raw length
at least MIN_TRANSCRIPT_LENGTH), fetchTranscript succeeds and returns the
cleaned version of a passing raw result; the minimum is enforced on the raw
result before cleaning, so the returned cleaned transcript itself may be
shorter than 50 characters. -/
theorem claim1_theorem (c : Cache) (v : String) (ms : List MethodOutcome)
    (h1 : cacheGet c v = none) (h2 : ∃ m ∈ ms, passes m = true) :
    ∃ raw, MIN_TRANSCRIPT_LENGTH ≤ raw.length ∧
      (fetchTranscript c v ms).1 = Except.ok (cleanTranscript raw) := by
  obtain ⟨raw, hsome, hlen⟩ := runMethods_existsPass ms h2
  refine ⟨raw, hlen, ?_⟩
  cases hr : runMethods ms with
  | mk o k =>
    rw [hr] at hsome
    cases o with
    | some r =>
      have hraw : r = raw := by simpa using hsome
      subst hraw
      simp [fetchTranscript, h1, hr]
    | none => simp at hsome

theorem claim1_witness :
    ∃ raw, MIN_TRANSCRIPT_LENGTH ≤ raw.length ∧
      (fetchTranscript [] "vid"
        [Except.ok "aaaaaaaaaaaaaaaaaaaaaaaaaaaaaaaaaaaaaaaaaaaaaaaaaa"]).1 =
        Except.ok (cleanTranscript raw) :=
  claim1_theorem [] "vid"
    [Except.ok "aaaaaaaaaaaaaaaaaaaaaaaaaaaaaaaaaaaaaaaaaaaaaaaaaa"] rfl
    ⟨Except.ok "aaaaaaaaaaaaaaaaaaaaaaaaaaaaaaaaaaaaaaaaaaaaaaaaaa",
      List.mem_singleton.mpr rfl, by decide⟩

/-- Claim C2: when the cache has no entry for the video id and every
strategy outcome either throws or is shorter than the 50-character minimum,
fetchTranscript fails with the terminal error, the cache is unchanged (no
partial or placeholder result is produced), and all strategies were
attempted. -/
theorem claim2_theorem (c : Cache) (v : String) (ms : List MethodOutcome)
    (h1 : cacheGet c v = none) (h2 : ∀ m ∈ ms, passes m = false) :
    fetchTranscript c v ms = (Except.error noTranscriptMsg, c, ms.length) := by
  simp [fetchTranscript, h1, runMethods_allFail ms h2]

theorem claim2_witness :
    fetchTranscript [] "vid" [Except.error "boom", Except.ok "too short"] =
      (Except.error noTranscriptMsg, [], 2) :=
  claim2_theorem [] "vid" [Except.error "boom", Except.ok "too short"] rfl
    (by decide)

/-- Claim C3: fetchTranscript is idempotent per video id within a session.
After any call that succeeds with transcript `t` and cache `c'`, every
later call for the same video id returns the bit-identical `t` from the
cache with the cache unchanged, attempting zero strategies (no network
fetches or DOM reads), whatever the strategy outcomes of the second call
would have been. -/
theorem claim3_theorem (c c' : Cache) (v t : String) (n : Nat)
    (ms ms' : List MethodOutcome)
    (h : fetchTranscript c v ms = (Except.ok t, c', n)) :
    fetchTranscript c' v ms' = (Except.ok t, c', 0) := by
  have hget : cacheGet c' v = some t := by
    cases hc : cacheGet c v with
    | some u =>
      have h' : ((Except.ok u : Except String String), c, 0) = (Except.ok t, c', n) := by
        rw [← h]; simp [fetchTranscript, hc]
      have h1 : (Except.ok u : Except String String) = Except.ok t :=
        congrArg Prod.fst h'
      have h2 : c = c' := congrArg (fun p => p.2.1) h'
      rw [← h2, hc]
      exact congrArg some (Except.ok.inj h1)
    | none =>
      cases hr : runMethods ms with
      | mk o k =>
        cases o with
        | some raw =>
          have h' : ((Except.ok (cleanTranscript raw) : Except String String),
              cacheSet c v (cleanTranscript raw), k) = (Except.ok t, c', n) := by
            rw [← h]; simp [fetchTranscript, hc, hr]
          have h1 : cleanTranscript raw = t :=
            Except.ok.inj (congrArg Prod.fst h')
          have h2 : cacheSet c v (cleanTranscript raw) = c' :=
            congrArg (fun p => p.2.1) h'
          rw [← h2, ← h1]
          exact cacheGet_cacheSet c v (cleanTranscript raw)
        | none =>
          have h' : ((Except.error noTranscriptMsg : Except String String), c, k) =
              (Except.ok t, c', n) := by
            rw [← h]; simp [fetchTranscript, hc, hr]
          exact absurd (congrArg Prod.fst h') (by simp)
  simp [fetchTranscript, hget]

theorem claim3_witness :
    fetchTranscript [("vid", "aaaaaaaaaaaaaaaaaaaaaaaaaaaaaaaaaaaaaaaaaaaaaaaaaa")]
      "vid" [Except.error "second run"] =
    (Except.ok "aaaaaaaaaaaaaaaaaaaaaaaaaaaaaaaaaaaaaaaaaaaaaaaaaa",
     [("vid", "aaaaaaaaaaaaaaaaaaaaaaaaaaaaaaaaaaaaaaaaaaaaaaaaaa")], 0) :=
  claim3_theorem []
    [("vid", "aaaaaaaaaaaaaaaaaaaaaaaaaaaaaaaaaaaaaaaaaaaaaaaaaa")]
    "vid" "aaaaaaaaaaaaaaaaaaaaaaaaaaaaaaaaaaaaaaaaaaaaaaaaaa" 2
    [Except.error "boom",
     Except.ok "aaaaaaaaaaaaaaaaaaaaaaaaaaaaaaaaaaaaaaaaaaaaaaaaaa"]
    [Except.error "second run"] (by rfl)

/-- Claim C10: acquisition failure is atomic with respect to the cache.
When fetchTranscript terminates with an error the cache is left exactly as
it was, and whenever the cache changes at all, the change is precisely one
new entry holding the cleaned transcript of a raw strategy result that
passed the acceptance test, which is also the returned value. -/
theorem claim10_theorem (c : Cache) (v : String) (ms : List MethodOutcome) :
    ((∃ e, (fetchTranscript c v ms).1 = Except.error e) →
      (fetchTranscript c v ms).2.1 = c) ∧
    ((fetchTranscript c v ms).2.1 ≠ c →
      ∃ raw, passes (Except.ok raw) = true ∧
        (fetchTranscript c v ms).1 = Except.ok (cleanTranscript raw) ∧
        (fetchTranscript c v ms).2.1 = cacheSet c v (cleanTranscript raw)) := by
  cases hc : cacheGet c v with
  | some t =>
    constructor
    · intro ⟨e, he⟩
      simp [fetchTranscript, hc] at he
    · intro hne
      simp [fetchTranscript, hc] at hne
  | none =>
    cases hr : runMethods ms with
    | mk o k =>
      cases o with
      | some raw =>
        constructor
        · intro ⟨e, he⟩
          simp [fetchTranscript, hc, hr] at he
        · intro _
          have hlen : MIN_TRANSCRIPT_LENGTH ≤ raw.length :=
            runMethods_some_length ms raw (by rw [hr])
          refine ⟨raw, by simp [passes, hlen], ?_, ?_⟩
          · simp [fetchTranscript, hc, hr]
          · simp [fetchTranscript, hc, hr]
      | none =>
        constructor
        · intro _
          simp [fetchTranscript, hc, hr]
        · intro hne
          simp [fetchTranscript, hc, hr] at hne

theorem claim10_witness :
    (fetchTranscript [] "vid" [Except.error "boom"]).2.1 = [] :=
  (claim10_theorem [] "vid" [Except.error "boom"]).1 ⟨noTranscriptMsg, rfl⟩

/-- Claim C4: the strategies are attempted strictly in list order (the
fixed priority order fetchFromPageData, fetchFromCaptionTracks,
fetchFromVisibleCaptions, fetchFromDescription, fetchFromPlayerAPI of
lines 1005-1011) and the first passing result short-circuits the chain: on
a cache miss the number of strategies attempted is exactly one more than
the index of the first passing outcome (all when none passes), and in
particular when strategy 1 passes exactly one strategy is attempted, so
strategies 2-5 are never run. -/
theorem claim4_theorem (c : Cache) (v : String) (ms : List MethodOutcome)
    (h : cacheGet c v = none) :
    (∀ i, firstPassIdx ms = some i → (fetchTranscript c v ms).2.2 = i + 1) ∧
    (firstPassIdx ms = none → (fetchTranscript c v ms).2.2 = ms.length) ∧
    (∀ m rest, ms = m :: rest → passes m = true →
      (fetchTranscript c v ms).2.2 = 1) := by
  refine ⟨?_, ?_, ?_⟩
  · intro i hi
    rw [fetchTranscript_count c v ms h]
    exact runMethods_count_of_firstPass ms i hi
  · intro hn
    rw [fetchTranscript_count c v ms h]
    exact runMethods_count_of_noPass ms hn
  · intro m rest hms hp
    rw [fetchTranscript_count c v ms h, hms]
    have h0 : firstPassIdx (m :: rest) = some 0 := by
      simp [firstPassIdx, hp]
    exact runMethods_count_of_firstPass (m :: rest) 0 h0

theorem claim4_witness :
    (fetchTranscript [] "vid"
      [Except.ok "aaaaaaaaaaaaaaaaaaaaaaaaaaaaaaaaaaaaaaaaaaaaaaaaaa",
       Except.error "strategy 2", Except.error "strategy 3",
       Except.error "strategy 4", Except.error "strategy 5"]).2.2 = 1 :=
  (claim4_theorem [] "vid"
    [Except.ok "aaaaaaaaaaaaaaaaaaaaaaaaaaaaaaaaaaaaaaaaaaaaaaaaaa",
     Except.error "strategy 2", Except.error "strategy 3",
     Except.error "strategy 4", Except.error "strategy 5"] rfl).2.2
    (Except.ok "aaaaaaaaaaaaaaaaaaaaaaaaaaaaaaaaaaaaaaaaaaaaaaaaaa")
    [Except.error "strategy 2", Except.error "strategy 3",
     Except.error "strategy 4", Except.error "strategy 5"] rfl (by decide)

/-- Claim C5: within one acquisition every strategy error is caught at the
per-strategy boundary and the chain simply moves on (an error outcome at
the head contributes one attempt and the run continues on the tail
unchanged); no strategy is attempted more than once (the attempt count
never exceeds the number of strategies); and the only internal retry is
fetchFromVisibleCaptions reading the rendered captions a second time, at
most twice in total and a second time only after clicking the captions
toggle. -/
theorem claim5_theorem :
    (∀ e r, runMethods (Except.error e :: r) =
      ((runMethods r).1, (runMethods r).2 + 1)) ∧
    (∀ ms : List MethodOutcome, (runMethods ms).2 ≤ ms.length) ∧
    (∀ p, (fetchFromVisibleCaptions p).readPasses ≤ 2) ∧
    (∀ p, (fetchFromVisibleCaptions p).readPasses = 2 →
      (fetchFromVisibleCaptions p).clicked = true) := by
  refine ⟨runMethods_error_cons, runMethods_count_le, ?_, ?_⟩
  · intro p
    unfold fetchFromVisibleCaptions
    dsimp only
    split
    · split
      · rw [visibleFinish_readPasses]
      · rw [visibleFinish_readPasses]
        decide
    · rw [visibleFinish_readPasses]
      decide
  · intro p
    unfold fetchFromVisibleCaptions
    dsimp only
    split
    · split
      · intro _
        rw [visibleFinish_clicked]
      · rw [visibleFinish_readPasses]
        intro h
        exact absurd h (by decide)
    · rw [visibleFinish_readPasses]
      intro h
      exact absurd h (by decide)

theorem claim5_witness :
    runMethods [Except.error "boom"] = (none, 1) ∧
    (fetchFromVisibleCaptions ⟨[[], [], [], []], true, false, []⟩).clicked = true :=
  ⟨claim5_theorem.1 "boom" [],
   claim5_theorem.2.2.2 ⟨[[], [], [], []], true, false, []⟩ (by rfl)⟩

/-- Claim C6, counterexample.  cleanTranscript is not idempotent: on the
input `a...` one application yields `a..` (the single left-to-right pass of
the punctuation collapse rewrites the first `..` pair and resumes after
it), and a second application further collapses to `a.`. -/
theorem claim6_counterexample :
    cleanTranscript (cleanTranscript "a...") ≠ cleanTranscript "a..." := by
  decide

/-- Claim C6, amended: cleanTranscript is deterministic (a pure function of
its input), but it is not idempotent in general: the repeated-word and
repeated-punctuation collapses are single left-to-right passes over the
original string, so a triple repetition leaves a double one behind and a
second application changes the text again; `a...` cleans to `a..` and then
to `a.`, and `word word word` cleans to `word word` and then to `word`. -/
theorem claim6_theorem :
    cleanTranscript "a..." = "a.." ∧ cleanTranscript "a.." = "a." ∧
    cleanTranscript "word word word" = "word word" ∧
    cleanTranscript "word word" = "word" := by
  refine ⟨by decide, by decide, by decide, by decide⟩

/-- Claim C7: decodeHTMLEntities decodes exactly the six entities of the
fixed table (and leaves unknown entities untouched); the timed-text parser
extracts every `text` element's content and joins the decoded texts with
single spaces; on a document whose text content is
`He said &quot;hi&quot; &amp; left` both the structured parser and the
pure-regex fallback yield `He said "hi" & left`. -/
theorem claim7_theorem :
    decodeHTMLEntities "&amp;" = "&" ∧
    decodeHTMLEntities "&lt;" = "<" ∧
    decodeHTMLEntities "&gt;" = ">" ∧
    decodeHTMLEntities "&quot;" = "\"" ∧
    decodeHTMLEntities "&#39;" = "'" ∧
    decodeHTMLEntities "&nbsp;" = " " ∧
    decodeHTMLEntities "&unknown;" = "&unknown;" ∧
    parseTranscriptXML
      "<text start=\"0\">He said &quot;hi&quot; &amp; left</text>" =
      Except.ok "He said \"hi\" & left" ∧
    parseTranscriptXMLWithRegex
      "<text start=\"0\">He said &quot;hi&quot; &amp; left</text>" =
      Except.ok "He said \"hi\" & left" ∧
    parseTranscriptXMLWithRegex
      "<text start=\"1\">one</text>\n<text start=\"2\">two</text>" =
      Except.ok "one two" := by
  exact ⟨by decide, by decide, by decide, by decide, by decide, by decide,
    by decide, by rfl, by rfl, by rfl⟩

/-- Claim C8: the description heuristic never accepts a description with
fewer than five timestamp-shaped substrings, and whenever it does return a
transcript, that transcript is exactly the description with the timestamp
tokens stripped (the code's stripping transform: remove each timestamp
token with its optional seconds extension and trailing whitespace, replace
newline runs by spaces, trim). -/
theorem claim8_theorem (d : String) :
    (tsCount d < 5 →
      fetchFromDescription (some d) =
        Except.error "Description does not appear to contain transcript") ∧
    (∀ t, fetchFromDescription (some d) = Except.ok t → t = descStripped d) := by
  constructor
  · intro h
    simp [fetchFromDescription, h]
  · intro t h
    by_cases h1 : tsCount d < 5
    · rw [(by simp [fetchFromDescription, h1] :
        fetchFromDescription (some d) =
          Except.error "Description does not appear to contain transcript")] at h
      exact absurd h (by simp)
    · by_cases h2 : d.length < MIN_TRANSCRIPT_LENGTH * 2
      · rw [(by simp [fetchFromDescription, h1, h2] :
          fetchFromDescription (some d) =
            Except.error "Description too short to be a transcript")] at h
        exact absurd h (by simp)
      · have : fetchFromDescription (some d) = Except.ok (descStripped d) := by
          simp [fetchFromDescription, h1, h2]
        rw [this] at h
        exact (Except.ok.inj h).symm

theorem claim8_witness :
    fetchFromDescription (some "just a plain description, no schedule") =
      Except.error "Description does not appear to contain transcript" ∧
    descStripped
        "0:00 intro 0:11 part one 0:22 part two 0:33 part three 0:44 part four 0:55 closing remarks and a long tail" =
      descStripped
        "0:00 intro 0:11 part one 0:22 part two 0:33 part three 0:44 part four 0:55 closing remarks and a long tail" :=
  by
  have h1 := claim8_theorem "just a plain description, no schedule"
  have h2 := claim8_theorem
    "0:00 intro 0:11 part one 0:22 part two 0:33 part three 0:44 part four 0:55 closing remarks and a long tail"
  exact ⟨h1.1 (by decide),
    h2.2
      (descStripped
        "0:00 intro 0:11 part one 0:22 part two 0:33 part three 0:44 part four 0:55 closing remarks and a long tail")
      (by rfl)⟩

/-- Claim C9, counterexample.  The claim asserts that video-identifier
extraction only ever returns null or an exactly-11-character token, but the
transcriptUtils variant (src/unnamed/part_005 lines 149-163, cited by the
claim) captures an arbitrary nonempty run of non-delimiter characters: on
the URL `https://youtu.be/abc` it returns the 3-character string `abc`. -/
theorem claim9_counterexample :
    utilsExtractVideoId "https://youtu.be/abc" = some "abc" ∧
    ("abc" : String).length ≠ 11 := by
  refine ⟨by rfl, by decide⟩

/-- Claim C9, amended: the VideoIdPatterns-based extractor
(YouTubeService.extractVideoId, matching the watch, embed and short URL
shapes) returns either null or a string of exactly 11 characters drawn
from the alphanumeric/hyphen/underscore alphabet; the transcriptUtils
variant returns the raw token up to a URL delimiter, which can have any
nonzero length. -/
theorem claim9_theorem (url : String) :
    extractVideoId url = none ∨
    ∃ s, extractVideoId url = some s ∧ s.length = 11 ∧
      s.data.all idChar = true := by
  unfold extractVideoId
  cases h1 : scanFor watchAt url.data with
  | some r =>
    right
    exact ⟨String.mk r, rfl, scanFor_spec watchAt_spec url.data r h1⟩
  | none =>
    cases h2 : scanFor embedAt url.data with
    | some r =>
      right
      exact ⟨String.mk r, rfl, scanFor_spec embedAt_spec url.data r h2⟩
    | none =>
      cases h3 : scanFor shortAt url.data with
      | some r =>
        right
        exact ⟨String.mk r, rfl, scanFor_spec shortAt_spec url.data r h3⟩
      | none => left; rfl

end SuperPlay

-- temporary development checks
example : SuperPlay.cleanTranscript "a..." = "a.." := by decide
example : SuperPlay.cleanTranscript "a.." = "a." := by decide
example : SuperPlay.cleanTranscript "word word word" = "word word" := by decide
example : SuperPlay.cleanTranscript "hello  [Music] world , yes" = "hello world, yes" := by decide
example : SuperPlay.cleanTranscript
    "[Music][Music][Music][Music][Music][Music][Music][Music]" = "" := by decide
example : SuperPlay.decodeHTMLEntities "&amp;" = "&" := by decide
example : SuperPlay.decodeHTMLEntities "&bogus; &#39;" = "&bogus; '" := by decide
example : SuperPlay.parseTranscriptXMLWithRegex
    "<text start=\"0\">He said &quot;hi&quot; &amp; left</text>" =
    Except.ok "He said \"hi\" & left" := by rfl
example : SuperPlay.parseTranscriptXML
    "<text start=\"0\">He said &quot;hi&quot; &amp; left</text>" =
    Except.ok "He said \"hi\" & left" := by rfl
example : SuperPlay.parseTranscriptXML "<x>no</x>" =
    Except.error "No text elements found in XML" := by rfl
example : SuperPlay.parseTranscriptXMLWithRegex
    "<text a=\"1\">one</text><junk/><text>two</text>" = Except.ok "one two" := by rfl
example : SuperPlay.extractVideoId "https://www.youtube.com/watch?v=dQw4w9WgXcQ" =
    some "dQw4w9WgXcQ" := by rfl
example : SuperPlay.extractVideoId "https://youtu.be/dQw4w9WgXcQ?t=1" =
    some "dQw4w9WgXcQ" := by rfl
example : SuperPlay.extractVideoId "https://youtu.be/abc" = none := by rfl
example : SuperPlay.utilsExtractVideoId "https://youtu.be/abc" = some "abc" := by rfl
example : SuperPlay.utilsExtractVideoId "https://www.youtube.com/watch?foo=1&v=xyz" =
    some "xyz" := by rfl
example : SuperPlay.countTimestamps 20 "0:00 x 1:23:45 y 9:59".data = 3 := by rfl
example : SuperPlay.fetchFromDescription (some "0:00 hi 0:01 there") =
    Except.error "Description does not appear to contain transcript" := by rfl
example : SuperPlay.descStripped "0:00 intro\n1:23:45 deep dive  2:00 end" =
    "intro deep dive  end" := by rfl
example :
    SuperPlay.fetchTranscript [] "v"
      [Except.error "boom",
       Except.ok "aaaaaaaaaaaaaaaaaaaaaaaaaaaaaaaaaaaaaaaaaaaaaaaaaa"] =
    (Except.ok "aaaaaaaaaaaaaaaaaaaaaaaaaaaaaaaaaaaaaaaaaaaaaaaaaa",
     [("v", "aaaaaaaaaaaaaaaaaaaaaaaaaaaaaaaaaaaaaaaaaaaaaaaaaa")], 2) := by rfl
example :
    SuperPlay.fetchTranscript [("v", "t")] "v" [Except.error "boom"] =
    (Except.ok "t", [("v", "t")], 0) := by rfl
example :
    (SuperPlay.fetchFromVisibleCaptions ⟨[[], [], [], []], true, false, []⟩).readPasses
      = 2 := by rfl
